import Mathlib

/-!
Verification of the m3u_gen_acestream regeneration pipeline
(src/m3u_generator.py) against its natural-language specification.

The per-destination pipeline body of M3UGenerator.main (lines 36-66) is
embedded as a pure function over abstract collaborators (ChannelHandler is
an external collaborator whose module is not part of the verified core), and
as a second, exception-aware model in which every collaborator call may fail,
mirroring Python exception propagation and the with-statement discipline of
line 42.
-/

namespace M3UGen

/-- Channel record: a Python dict carrying at least the keys used by the
core, x.get('name') and x.get('cat') (lines 50-51), plus opaque further
fields summarized in one string. -/
structure Channel where
  name : String
  cat : String
  rest : String
  deriving DecidableEq, Repr

/-- Destination data set: the fields of a Config.DATA_SETS element read by
M3UGenerator.main (lines 36-38 and 53). -/
structure DataSet where
  OUT_FILE_NAME : String
  OUT_FILE_ENCODING : String
  OUT_FILE_FIRST_LINE : String
  CLEAN_FILTER : Bool
  deriving DecidableEq, Repr

/-- Comparison used by channel_list.sort(key=lambda x: x.get('name')) at
line 50: Python list.sort orders string keys by their standard order. -/
def nameLe (a b : Channel) : Bool := decide (a.name ≤ b.name)

/-- Comparison used by channel_list.sort(key=lambda x: x.get('cat')) at
line 51. -/
def catLe (a b : Channel) : Bool := decide (a.cat ≤ b.cat)

/-- Abstract collaborator surface used by the pipeline: the ChannelHandler
calls at lines 48, 49, 54, 59, 60.  write_entry yields the text appended to
the output file for one channel. -/
structure Collaborators where
  get_channel_list : DataSet → List Channel
  remap_cat : DataSet → Channel → Channel
  clean_filter : List Channel → DataSet → List Channel
  is_channel_allowed : Channel → DataSet → Bool
  write_entry : Channel → DataSet → String

/-- Modelled from the spec: ChannelHandler.replace_categories (line 49) is
not part of the verified core; the spec describes it as a pure
transformation returning a collection with category labels rewritten per
destination rules, which we model as mapping an arbitrary per-channel
rewrite over the collection. -/
def replace_categories (env : Collaborators) (cs : List Channel) (ds : DataSet) : List Channel :=
  cs.map (env.remap_cat ds)

/-- The collection after lines 48-51: fetch, remap, then the two stable
in-place sorts (by name, then by cat).  Python list.sort is stable; a stable
sort is uniquely determined by its comparison, so List.mergeSort (stable)
models it exactly. -/
def sortedChannels (env : Collaborators) (ds : DataSet) : List Channel :=
  ((replace_categories env (env.get_channel_list ds) ds).mergeSort nameLe).mergeSort catLe

/-- The collection entering the write loop of line 56: the sorted collection,
passed through clean_filter when the data set's CLEAN_FILTER flag is set
(lines 53-54). -/
def loopChannels (env : Collaborators) (ds : DataSet) : List Channel :=
  if ds.CLEAN_FILTER then env.clean_filter (sortedChannels env ds) ds
  else sortedChannels env ds

/-- State threaded through the write loop: the two counters of lines 45-46,
the bytes written to the output file so far, and the trace of channels for
which write_entry was invoked. -/
structure LoopState where
  total : Nat
  allowed : Nat
  content : String
  written : List Channel
  deriving DecidableEq, Repr

/-- The write loop of lines 56-61: every channel bumps total; allowed
channels are written via write_entry and bump allowed. -/
def writeLoop (env : Collaborators) (ds : DataSet) : List Channel → LoopState → LoopState
  | [], st => st
  | c :: cs, st =>
    let st1 : LoopState := { st with total := st.total + 1 }
    if env.is_channel_allowed c ds then
      writeLoop env ds cs
        { st1 with
          allowed := st1.allowed + 1
          content := st1.content ++ env.write_entry c ds
          written := st1.written ++ [c] }
    else
      writeLoop env ds cs st1

/-- Concatenation of the serialized entries of a list of channels. -/
def entriesText (env : Collaborators) (ds : DataSet) : List Channel → String
  | [] => ""
  | c :: cs => env.write_entry c ds ++ entriesText env ds cs

/-- Opening a file in mode 'w' (line 42) truncates it: whatever the file
held before, its content starts empty. -/
def openTruncate (_prior : String) : String := ""

/-- The per-destination pipeline body, lines 42-61: truncate the file, write
the configured first line, build the collection, run the write loop. -/
def processDataSet (env : Collaborators) (ds : DataSet) (prior : String) : LoopState :=
  writeLoop env ds (loopChannels env ds)
    { total := 0
      allowed := 0
      content := openTruncate prior ++ ds.OUT_FILE_FIRST_LINE
      written := [] }

/-- The denied count as reported at line 66: total minus allowed. -/
def deniedCount (st : LoopState) : Nat := st.total - st.allowed

/-- Predicate: the channel passes the allow/deny decision for this data
set. -/
def allowedBy (env : Collaborators) (ds : DataSet) (c : Channel) : Bool :=
  env.is_channel_allowed c ds

theorem writeLoop_spec (env : Collaborators) (ds : DataSet) :
    ∀ (cl : List Channel) (st : LoopState),
    writeLoop env ds cl st =
      { total := st.total + cl.length
        allowed := st.allowed + cl.countP (allowedBy env ds)
        content := st.content ++ entriesText env ds (cl.filter (allowedBy env ds))
        written := st.written ++ cl.filter (allowedBy env ds) } := by
  intro cl
  induction cl with
  | nil =>
    intro st
    simp [writeLoop, entriesText]
  | cons c cs ih =>
    intro st
    rw [writeLoop]
    by_cases h : env.is_channel_allowed c ds = true
    · simp only [h, if_true, ih, List.countP_cons, List.filter_cons, allowedBy,
        List.length_cons, entriesText, List.singleton_append, List.append_assoc,
        String.append_assoc, if_pos]
      simp only [LoopState.mk.injEq, and_true, true_and]
      omega
    · simp only [Bool.not_eq_true] at h
      simp only [h, Bool.false_eq_true, if_false, ih, List.countP_cons, List.filter_cons,
        allowedBy, List.length_cons, entriesText]
      simp only [LoopState.mk.injEq, and_true, true_and]
      omega

theorem processDataSet_eq (env : Collaborators) (ds : DataSet) (prior : String) :
    processDataSet env ds prior =
      { total := (loopChannels env ds).length
        allowed := (loopChannels env ds).countP (allowedBy env ds)
        content := ds.OUT_FILE_FIRST_LINE ++
          entriesText env ds ((loopChannels env ds).filter (allowedBy env ds))
        written := (loopChannels env ds).filter (allowedBy env ds) } := by
  simp [processDataSet, writeLoop_spec, openTruncate]

/-- Output order promised by the spec: non-decreasing by category, and
within equal category non-decreasing by name. -/
def orderedOut (a b : Channel) : Prop :=
  a.cat ≤ b.cat ∧ (a.cat = b.cat → a.name ≤ b.name)

theorem nameLe_trans : ∀ (a b c : Channel), nameLe a b → nameLe b c → nameLe a c := by
  intro a b c hab hbc
  simp only [nameLe, decide_eq_true_eq] at hab hbc ⊢
  exact le_trans hab hbc

theorem nameLe_total : ∀ (a b : Channel), nameLe a b || nameLe b a := by
  intro a b
  simp only [nameLe, Bool.or_eq_true, decide_eq_true_eq]
  exact le_total _ _

theorem catLe_trans : ∀ (a b c : Channel), catLe a b → catLe b c → catLe a c := by
  intro a b c hab hbc
  simp only [catLe, decide_eq_true_eq] at hab hbc ⊢
  exact le_trans hab hbc

theorem catLe_total : ∀ (a b : Channel), catLe a b || catLe b a := by
  intro a b
  simp only [catLe, Bool.or_eq_true, decide_eq_true_eq]
  exact le_total _ _

theorem filter_cat_pairwise_catLe (m : List Channel) (k : String) :
    (m.filter (fun x => decide (x.cat = k))).Pairwise (fun a b => catLe a b = true) := by
  rw [List.pairwise_iff_forall_sublist]
  intro a b hab
  have ha : a ∈ m.filter (fun x => decide (x.cat = k)) :=
    hab.subset (List.mem_cons_self a [b])
  have hb : b ∈ m.filter (fun x => decide (x.cat = k)) := hab.subset (by simp)
  have ha2 : a.cat = k := by simpa using (List.mem_filter.mp ha).2
  have hb2 : b.cat = k := by simpa using (List.mem_filter.mp hb).2
  simp [catLe, ha2, hb2]

/-- Stability of the second sorting pass: the elements of any one category
keep exactly the relative order they had before sorting by category. -/
theorem mergeSort_catLe_filter_eq (m : List Channel) (k : String) :
    (m.mergeSort catLe).filter (fun x => decide (x.cat = k)) =
      m.filter (fun x => decide (x.cat = k)) := by
  have hpw := filter_cat_pairwise_catLe m k
  have hsub_o : List.Sublist (m.filter (fun x => decide (x.cat = k))) (m.mergeSort catLe) :=
    List.sublist_mergeSort catLe_trans catLe_total hpw (List.filter_sublist m)
  have hsub_f : List.Sublist (m.filter (fun x => decide (x.cat = k)))
      ((m.mergeSort catLe).filter (fun x => decide (x.cat = k))) := by
    have h2 := hsub_o.filter (fun x => decide (x.cat = k))
    have heq : (m.filter (fun x => decide (x.cat = k))).filter
        (fun x => decide (x.cat = k)) = m.filter (fun x => decide (x.cat = k)) :=
      List.filter_eq_self.mpr (fun a ha => (List.mem_filter.mp ha).2)
    rw [heq] at h2
    exact h2
  have hlen : ((m.mergeSort catLe).filter (fun x => decide (x.cat = k))).length =
      (m.filter (fun x => decide (x.cat = k))).length :=
    ((List.mergeSort_perm m catLe).filter _).length_eq
  exact (hsub_f.eq_of_length hlen.symm).symm

/-- Sorting by name and then, stably, by category yields the lexicographic
(category, name) order the spec demands. -/
theorem twoPassSort_pairwise (l : List Channel) :
    ((l.mergeSort nameLe).mergeSort catLe).Pairwise orderedOut := by
  have hmsort : (l.mergeSort nameLe).Pairwise (fun a b => nameLe a b = true) :=
    List.sorted_mergeSort nameLe_trans nameLe_total l
  set m := l.mergeSort nameLe with hm
  have hcat : (m.mergeSort catLe).Pairwise (fun a b => catLe a b = true) :=
    List.sorted_mergeSort catLe_trans catLe_total m
  rw [List.pairwise_iff_forall_sublist]
  intro a b hab
  refine ⟨?_, ?_⟩
  · have h1 := List.pairwise_iff_forall_sublist.mp hcat hab
    simpa [catLe] using h1
  · intro heq
    have hfe := mergeSort_catLe_filter_eq m a.cat
    have hfp : ((m.mergeSort catLe).filter (fun x => decide (x.cat = a.cat))).Pairwise
        (fun x y => nameLe x y = true) := by
      rw [hfe]
      exact hmsort.sublist (List.filter_sublist m)
    have hpp := List.pairwise_filter.mp hfp
    have h2 := List.pairwise_iff_forall_sublist.mp hpp hab rfl heq.symm
    simpa [nameLe] using h2

theorem sortedChannels_pairwise (env : Collaborators) (ds : DataSet) :
    (sortedChannels env ds).Pairwise orderedOut :=
  twoPassSort_pairwise _

/-- Concrete destination with the dedup toggle set, for witnesses. -/
def dsDedup : DataSet :=
  { OUT_FILE_NAME := "out/a.m3u"
    OUT_FILE_ENCODING := "utf-8"
    OUT_FILE_FIRST_LINE := "#EXTM3U\n"
    CLEAN_FILTER := true }

/-- Concrete destination with the dedup toggle unset, for witnesses. -/
def dsPlain : DataSet :=
  { OUT_FILE_NAME := "out/b.m3u"
    OUT_FILE_ENCODING := "utf-8"
    OUT_FILE_FIRST_LINE := "#EXTM3U\n"
    CLEAN_FILTER := false }

/-- Concrete collaborators delivering two channels, for witnesses. -/
def envW : Collaborators :=
  { get_channel_list := fun _ => [⟨"B", "Sports", ""⟩, ⟨"A", "News", ""⟩]
    remap_cat := fun _ c => c
    clean_filter := fun l _ => l
    is_channel_allowed := fun _ _ => true
    write_entry := fun c _ => "#EXTINF:-1," ++ c.name ++ "\n" }

/-- Concrete collaborators whose fetch result is empty, for witnesses. -/
def envEmpty : Collaborators :=
  { get_channel_list := fun _ => []
    remap_cat := fun _ c => c
    clean_filter := fun l _ => l
    is_channel_allowed := fun _ _ => true
    write_entry := fun c _ => c.name }

/-- C1: for every destination and every non-empty fetched collection, as
long as the dedup stage only removes entries from the collection it is
given, the channels written to the output file appear in order
non-decreasing by category and, within equal category, non-decreasing by
name; the statement quantifies over both values of the dedup toggle, so the
order is applied identically whether or not it is set. -/
theorem C1_output_order (env : Collaborators) (ds : DataSet) (prior : String)
    (hcf : ∀ l, List.Sublist (env.clean_filter l ds) l)
    (hne : env.get_channel_list ds ≠ []) :
    ((processDataSet env ds prior).written).Pairwise orderedOut := by
  have hloop : (loopChannels env ds).Pairwise orderedOut := by
    unfold loopChannels
    cases h : ds.CLEAN_FILTER
    · simp only [Bool.false_eq_true, if_false]
      exact sortedChannels_pairwise env ds
    · simp only [if_true]
      exact (sortedChannels_pairwise env ds).sublist (hcf _)
  rw [processDataSet_eq]
  exact hloop.sublist (List.filter_sublist _)

theorem C1_witness :
    (∀ l, List.Sublist (envW.clean_filter l dsDedup) l) ∧
    envW.get_channel_list dsDedup ≠ [] ∧
    ((processDataSet envW dsDedup "old").written).Pairwise orderedOut :=
  ⟨fun l => List.Sublist.refl l, by decide,
    C1_output_order envW dsDedup "old" (fun l => List.Sublist.refl l) (by decide)⟩

/-- C2: the generated content always begins with exactly the destination's
configured first line, and when the fetched collection is empty (and the
dedup stage only removes entries) the content is exactly that first line
with counts (0, 0). -/
theorem C2_header (env : Collaborators) (ds : DataSet) (prior : String)
    (hcf : ∀ l, List.Sublist (env.clean_filter l ds) l) :
    (∃ rest, (processDataSet env ds prior).content = ds.OUT_FILE_FIRST_LINE ++ rest) ∧
    (env.get_channel_list ds = [] →
      (processDataSet env ds prior).content = ds.OUT_FILE_FIRST_LINE ∧
      (processDataSet env ds prior).total = 0 ∧
      (processDataSet env ds prior).allowed = 0) := by
  constructor
  · exact ⟨_, by rw [processDataSet_eq]⟩
  · intro hempty
    have hsortnil : sortedChannels env ds = [] := by
      simp [sortedChannels, replace_categories, hempty]
    have hloopnil : loopChannels env ds = [] := by
      unfold loopChannels
      cases h : ds.CLEAN_FILTER
      · simpa using hsortnil
      · simp only [if_true]
        have h2 := hcf (sortedChannels env ds)
        rw [hsortnil] at h2
        rw [hsortnil]
        exact List.sublist_nil.mp h2
    rw [processDataSet_eq, hloopnil]
    simp [entriesText]

theorem C2_witness :
    envEmpty.get_channel_list dsDedup = [] ∧
    (processDataSet envEmpty dsDedup "junk").content = dsDedup.OUT_FILE_FIRST_LINE ∧
    (processDataSet envEmpty dsDedup "junk").total = 0 ∧
    (processDataSet envEmpty dsDedup "junk").allowed = 0 :=
  ⟨rfl, (C2_header envEmpty dsDedup "junk" (fun l => List.Sublist.refl l)).2 rfl⟩

/-- C4: with the dedup toggle unset, the number of entries written equals
the number of channels of the (remapped) collection that pass the
allow/deny decision, and the reported total equals the size of the fetched
collection. -/
theorem C4_counts_no_dedup (env : Collaborators) (ds : DataSet) (prior : String)
    (h : ds.CLEAN_FILTER = false) :
    (processDataSet env ds prior).allowed =
      (replace_categories env (env.get_channel_list ds) ds).countP (allowedBy env ds) ∧
    (processDataSet env ds prior).total = (env.get_channel_list ds).length := by
  have hloop : loopChannels env ds = sortedChannels env ds := by
    simp [loopChannels, h]
  simp only [processDataSet_eq]
  constructor
  · rw [hloop]
    unfold sortedChannels
    rw [(List.mergeSort_perm _ catLe).countP_eq, (List.mergeSort_perm _ nameLe).countP_eq]
  · rw [hloop]
    unfold sortedChannels
    simp [replace_categories]

theorem C4_witness :
    dsPlain.CLEAN_FILTER = false ∧
    (processDataSet envW dsPlain "x").allowed =
      (replace_categories envW (envW.get_channel_list dsPlain) dsPlain).countP
        (allowedBy envW dsPlain) ∧
    (processDataSet envW dsPlain "x").total = (envW.get_channel_list dsPlain).length :=
  ⟨rfl, C4_counts_no_dedup envW dsPlain "x" rfl⟩

/-- C5: every channel for which write_entry was invoked passed the
allow/deny decision for this destination, the allowed count never exceeds
the total, and the reported denied count is total minus allowed. -/
theorem C5_written_passed_filter (env : Collaborators) (ds : DataSet) (prior : String) :
    (∀ c ∈ (processDataSet env ds prior).written, env.is_channel_allowed c ds = true) ∧
    (processDataSet env ds prior).allowed ≤ (processDataSet env ds prior).total ∧
    deniedCount (processDataSet env ds prior) =
      (processDataSet env ds prior).total - (processDataSet env ds prior).allowed := by
  refine ⟨?_, ?_, rfl⟩
  · intro c hc
    rw [processDataSet_eq] at hc
    simp only [] at hc
    have h2 := (List.mem_filter.mp hc).2
    simpa [allowedBy] using h2
  · simp only [processDataSet_eq]
    exact List.countP_le_length _

/-- C10: the reported total always equals the size of the collection as it
enters the write loop; in particular with the dedup toggle set it is the
post-clean_filter size, not the fetched size. -/
theorem C10_total_is_loop_size (env : Collaborators) (ds : DataSet) (prior : String) :
    (processDataSet env ds prior).total = (loopChannels env ds).length ∧
    (ds.CLEAN_FILTER = true →
      (processDataSet env ds prior).total =
        (env.clean_filter (sortedChannels env ds) ds).length) := by
  constructor
  · simp [processDataSet_eq]
  · intro h
    simp [processDataSet_eq, loopChannels, h]

theorem C10_witness :
    dsDedup.CLEAN_FILTER = true ∧
    (processDataSet envW dsDedup "p").total =
      (envW.clean_filter (sortedChannels envW dsDedup) dsDedup).length :=
  ⟨rfl, (C10_total_is_loop_size envW dsDedup "p").2 rfl⟩

/-- Error value standing for a raised Python exception (its message). -/
abbrev Err := String

/-- Fallible collaborator surface: every call the pipeline makes may raise.
open_file summarizes lines 40-42 (directory creation and opening the output
file). -/
structure CollaboratorsE where
  open_file : DataSet → Except Err Unit
  get_channel_list : DataSet → Except Err (List Channel)
  replace_categories : List Channel → DataSet → Except Err (List Channel)
  clean_filter : List Channel → DataSet → Except Err (List Channel)
  is_channel_allowed : Channel → DataSet → Except Err Bool
  write_entry : Channel → DataSet → Except Err String

/-- State of the output file after the pipeline ends: the bytes it holds on
disk and whether the handle was closed. -/
structure FileState where
  content : String
  closed : Bool
  deriving DecidableEq, Repr

/-- Fallible write loop (lines 56-61): on a raise, the bytes written so far
stay in the file and the error propagates. -/
def writeLoopE (env : CollaboratorsE) (ds : DataSet) :
    List Channel → Nat → Nat → String → String × Except Err (Nat × Nat)
  | [], t, a, s => (s, Except.ok (t, a))
  | c :: cs, t, a, s =>
    match env.is_channel_allowed c ds with
    | Except.error e => (s, Except.error e)
    | Except.ok false => writeLoopE env ds cs (t + 1) a s
    | Except.ok true =>
      match env.write_entry c ds with
      | Except.error e => (s, Except.error e)
      | Except.ok entry => writeLoopE env ds cs (t + 1) (a + 1) (s ++ entry)

/-- Fallible pipeline body (lines 40-61).  The with-statement of line 42
closes the handle on every exit path after a successful open, so closed is
true in the FileState of every branch; an error before the open leaves no
file state (none). -/
def processDataSetE (env : CollaboratorsE) (ds : DataSet) (prior : String) :
    Option FileState × Except Err (Nat × Nat) :=
  match env.open_file ds with
  | Except.error e => (none, Except.error e)
  | Except.ok _ =>
    match env.get_channel_list ds with
    | Except.error e =>
      (some ⟨openTruncate prior ++ ds.OUT_FILE_FIRST_LINE, true⟩, Except.error e)
    | Except.ok cl0 =>
      match env.replace_categories cl0 ds with
      | Except.error e =>
        (some ⟨openTruncate prior ++ ds.OUT_FILE_FIRST_LINE, true⟩, Except.error e)
      | Except.ok cl1 =>
        match (if ds.CLEAN_FILTER then
            env.clean_filter ((cl1.mergeSort nameLe).mergeSort catLe) ds
          else Except.ok ((cl1.mergeSort nameLe).mergeSort catLe)) with
        | Except.error e =>
          (some ⟨openTruncate prior ++ ds.OUT_FILE_FIRST_LINE, true⟩, Except.error e)
        | Except.ok cl3 =>
          match writeLoopE env ds cl3 0 0 (openTruncate prior ++ ds.OUT_FILE_FIRST_LINE) with
          | (s, r) => (some ⟨s, true⟩, r)

/-- One pass of the for-loop of line 32 over the configured data sets: the
first component is the list of destinations whose pipeline was invoked; an
error aborts the loop and propagates out of the cycle. -/
def runCycle (env : CollaboratorsE) (prior : String) :
    List DataSet → List DataSet × Except Err Unit
  | [] => ([], Except.ok ())
  | ds :: rest =>
    match (processDataSetE env ds prior).snd with
    | Except.error e => ([ds], Except.error e)
    | Except.ok _ =>
      match runCycle env prior rest with
      | (tr, r) => (ds :: tr, r)

/-- C3 (amended): on every exit path reached after the output file was
opened, the handle is released (closed is true whenever a file state
exists), whatever the destination, the collaborator outcomes and the prior
file content. -/
theorem C3_amended_handle_released (env : CollaboratorsE) (ds : DataSet) (prior : String) :
    ((processDataSetE env ds prior).fst.all fun fs => fs.closed) = true := by
  unfold processDataSetE
  repeat' split
  all_goals rfl

/-- Collaborators whose fetch raises, for the C3 counterexample. -/
def envFetchFail : CollaboratorsE :=
  { open_file := fun _ => Except.ok ()
    get_channel_list := fun _ => Except.error "fetch failed"
    replace_categories := fun l _ => Except.ok l
    clean_filter := fun l _ => Except.ok l
    is_channel_allowed := fun _ _ => Except.ok true
    write_entry := fun c _ => Except.ok c.name }

/-- C3 counterexample: when fetch raises after the file was opened, the
pipeline fails, yet the output path now holds a partially-written file
(the bare header), no longer the previous playlist: a failure does leave a
partially-written output file visible. -/
theorem C3_counterexample :
    (processDataSetE envFetchFail dsPlain "#EXTM3U\nold entries\n").snd =
      Except.error "fetch failed" ∧
    (processDataSetE envFetchFail dsPlain "#EXTM3U\nold entries\n").fst =
      some { content := "#EXTM3U\n", closed := true } ∧
    "#EXTM3U\n" ≠ "#EXTM3U\nold entries\n" :=
  ⟨rfl, rfl, by decide⟩

/-- C6: if the pipeline fails for destination b, no destination after b is
processed in that cycle and the failure propagates out of the cycle
driver. -/
theorem C6_failure_aborts_cycle (env : CollaboratorsE) (prior : String)
    (l1 : List DataSet) (b : DataSet) (l2 : List DataSet) (e : Err)
    (h1 : ∀ ds ∈ l1, ∃ r, (processDataSetE env ds prior).snd = Except.ok r)
    (hb : (processDataSetE env b prior).snd = Except.error e) :
    runCycle env prior (l1 ++ b :: l2) = (l1 ++ [b], Except.error e) := by
  induction l1 with
  | nil =>
    simp only [List.nil_append]
    rw [runCycle, hb]
  | cons d rest1 ih =>
    obtain ⟨r, hr⟩ := h1 d (List.mem_cons_self d rest1)
    have ih2 := ih (fun x hx => h1 x (List.mem_cons_of_mem d hx))
    simp only [List.cons_append]
    rw [runCycle, hr]
    dsimp only
    rw [ih2]

/-- Collaborators that raise exactly when the destination has the dedup
toggle set, for the C6 witness. -/
def envSelective : CollaboratorsE :=
  { open_file := fun _ => Except.ok ()
    get_channel_list := fun ds =>
      if ds.CLEAN_FILTER then Except.error "boom" else Except.ok []
    replace_categories := fun l _ => Except.ok l
    clean_filter := fun l _ => Except.ok l
    is_channel_allowed := fun _ _ => Except.ok true
    write_entry := fun c _ => Except.ok c.name }

theorem C6_witness :
    (∀ ds ∈ [dsPlain], ∃ r, (processDataSetE envSelective ds "").snd = Except.ok r) ∧
    (processDataSetE envSelective dsDedup "").snd = Except.error "boom" ∧
    runCycle envSelective "" ([dsPlain] ++ dsDedup :: [dsPlain]) =
      ([dsPlain] ++ [dsDedup], Except.error "boom") := by
  have h1 : ∀ ds ∈ [dsPlain], ∃ r, (processDataSetE envSelective ds "").snd = Except.ok r := by
    intro ds hds
    simp only [List.mem_singleton] at hds
    subst hds
    refine ⟨(0, 0), ?_⟩
    simp [processDataSetE, envSelective, dsPlain, writeLoopE, openTruncate]
  have hb : (processDataSetE envSelective dsDedup "").snd = Except.error "boom" := by
    simp [processDataSetE, envSelective, dsDedup]
  exact ⟨h1, hb, C6_failure_aborts_cycle envSelective "" [dsPlain] dsDedup [dsPlain] "boom" h1 hb⟩

/-- C9: the pipeline result, in both the pure and the fallible model, is a
function of the destination and the collaborator results alone: the prior
content of the output file (mode w truncates it, line 42) has no influence,
so two runs with unchanged fetch results and rules produce byte-identical
files and identical counts. -/
theorem C9_deterministic (env : Collaborators) (envE : CollaboratorsE) (ds : DataSet)
    (p q : String) :
    processDataSet env ds p = processDataSet env ds q ∧
    processDataSetE envE ds p = processDataSetE envE ds q :=
  ⟨rfl, rfl⟩

/-- Observable steps of the top-level crash handler (lines 86-97). -/
inductive TopAction where
  | printExc (diag : String)
  | note (msg : String)
  | sendEmail (subject body : String)
  | pause
  deriving DecidableEq, Repr

/-- The two crash-handling flags of Config read at lines 89 and 94. -/
structure TopConfig where
  MAIL_ON_CRASH : Bool
  PAUSE_ON_CRASH : Bool
  deriving DecidableEq, Repr

/-- Subject line built at line 91. -/
def crashSubject (host ip : String) : String :=
  "M3UGenerator has crashed on " ++ host ++ "@" ++ ip

/-- The except-block of lines 86-97: print the traceback unconditionally;
if MAIL_ON_CRASH, send the notification email (a raise there propagates,
unhandled); if PAUSE_ON_CRASH, block for operator input; then exit with
status 1 (the ok value of the second component). -/
def handleCrash (cfg : TopConfig) (host ip diag : String) (sendResult : Except Err Unit) :
    List TopAction × Except Err Nat :=
  let tr0 := [TopAction.printExc diag]
  if cfg.MAIL_ON_CRASH then
    let tr1 := tr0 ++ [TopAction.note "Sending notification.",
      TopAction.sendEmail (crashSubject host ip) diag]
    match sendResult with
    | Except.error e => (tr1, Except.error e)
    | Except.ok _ =>
      if cfg.PAUSE_ON_CRASH then (tr1 ++ [TopAction.pause], Except.ok 1)
      else (tr1, Except.ok 1)
  else
    if cfg.PAUSE_ON_CRASH then (tr0 ++ [TopAction.pause], Except.ok 1)
    else (tr0, Except.ok 1)

/-- C7: at the outermost boundary the diagnostic is always reported first;
the email, whose subject names the host and whose body is the full
diagnostic, is sent exactly when MAIL_ON_CRASH is set, and a failing send
propagates with nothing further handled (no pause, no exit path); the
process pauses exactly when PAUSE_ON_CRASH is set, and otherwise exits with
status 1. -/
theorem C7_crash_boundary (cfg : TopConfig) (host ip diag : String) (e : Err) :
    ((handleCrash cfg host ip diag (Except.ok ())).fst.head? =
      some (TopAction.printExc diag)) ∧
    ((handleCrash cfg host ip diag (Except.error e)).fst.head? =
      some (TopAction.printExc diag)) ∧
    ((TopAction.sendEmail (crashSubject host ip) diag ∈
      (handleCrash cfg host ip diag (Except.ok ())).fst) ↔ cfg.MAIL_ON_CRASH = true) ∧
    (∃ s1 s2, crashSubject host ip = s1 ++ host ++ s2) ∧
    ((TopAction.pause ∈ (handleCrash cfg host ip diag (Except.ok ())).fst) ↔
      cfg.PAUSE_ON_CRASH = true) ∧
    ((handleCrash cfg host ip diag (Except.ok ())).snd = Except.ok 1) ∧
    (cfg.MAIL_ON_CRASH = true →
      (handleCrash cfg host ip diag (Except.error e)).snd = Except.error e ∧
      TopAction.pause ∉ (handleCrash cfg host ip diag (Except.error e)).fst) := by
  have hsub : ∃ s1 s2, crashSubject host ip = s1 ++ host ++ s2 :=
    ⟨"M3UGenerator has crashed on ", "@" ++ ip, by
      simp [crashSubject, String.append_assoc]⟩
  obtain ⟨m, p⟩ := cfg
  cases m <;> cases p <;> simp [handleCrash, hsub]

theorem C7_witness :
    (⟨true, true⟩ : TopConfig).MAIL_ON_CRASH = true ∧
    (handleCrash ⟨true, true⟩ "host1" "10.0.0.1" "Traceback" (Except.error "smtp down")).snd =
      Except.error "smtp down" ∧
    TopAction.pause ∉
      (handleCrash ⟨true, true⟩ "host1" "10.0.0.1" "Traceback" (Except.error "smtp down")).fst :=
  ⟨rfl,
    ((C7_crash_boundary ⟨true, true⟩ "host1" "10.0.0.1" "Traceback" "smtp down").2.2.2.2.2.2
      rfl).1,
    ((C7_crash_boundary ⟨true, true⟩ "host1" "10.0.0.1" "Traceback" "smtp down").2.2.2.2.2.2
      rfl).2⟩

/-- Modelled from the spec: os.makedirs(path, exist_ok=True) at line 40 is
outside the verified core; the spec says it creates the directory
recursively if absent and raises no error when it already exists.  The file
system is a list of existing directories, each a list of path components;
without exist_ok an existing leaf raises FileExistsError. -/
def makedirs (fs : List (List String)) (p : List String) (exist_ok : Bool) :
    Except Err (List (List String)) :=
  if p ∈ fs then
    if exist_ok then Except.ok fs else Except.error "FileExistsError"
  else
    Except.ok (fs ++ p.inits.filter (fun q => decide (q ∉ fs)))

/-- Directory part of a path, as os.path.dirname on a slash-separated
path. -/
def dirnameComps (path : String) : List String :=
  (path.splitOn "/").dropLast

/-- The directory-ensuring step of line 40. -/
def ensure_out_dir (fs : List (List String)) (ds : DataSet) :
    Except Err (List (List String)) :=
  makedirs fs (dirnameComps ds.OUT_FILE_NAME) true

/-- C8: on any file system state, for any destination, the
directory-ensuring step succeeds: it never raises, afterwards the output
directory exists, and no existing directory is lost; in particular it is
error-free when the directory already exists. -/
theorem C8_ensure_out_dir_ok (fs : List (List String)) (ds : DataSet) :
    ∃ fs2, ensure_out_dir fs ds = Except.ok fs2 ∧
      dirnameComps ds.OUT_FILE_NAME ∈ fs2 ∧ ∀ d ∈ fs, d ∈ fs2 := by
  unfold ensure_out_dir makedirs
  by_cases h : dirnameComps ds.OUT_FILE_NAME ∈ fs
  · refine ⟨fs, ?_, h, fun d hd => hd⟩
    simp [h]
  · refine ⟨fs ++ (dirnameComps ds.OUT_FILE_NAME).inits.filter
      (fun q => decide (q ∉ fs)), ?_, ?_, ?_⟩
    · simp [h]
    · apply List.mem_append_right
      rw [List.mem_filter]
      refine ⟨(List.mem_inits _ _).mpr ⟨[], by simp⟩, by simpa using h⟩
    · intro d hd
      exact List.mem_append_left _ hd

end M3UGen
